import Mathlib

/-!
Shallow embedding of parts of the `starknet-foundry` repository:
  * `crates/forge-runner/src/running.rs` — the single-test execution engine
    (hint indexing, test-case execution, cancellable scheduling, summary extraction);
  * `crates/cast/src/helpers/scarb_utils.rs` — manifest configuration loading.

External collaborators (the Cairo VM, the blockifier execution engine, the Sierra
runner, the network fork reader) are not part of the repository; they are modelled
as opaque deterministic function parameters bundled in `VmOracle`, exactly at the
points where `running.rs` calls into them.
-/

/-! ## Generic helpers: association-map insert (Rust `HashMap::insert`),
    substring containment, and `str::replace`. -/

/-- Model of `HashMap::insert`: if the key is present its value is overwritten in
place, otherwise the entry is appended. The association list keeps one entry per
key as long as it is built by this function only. -/
def insertA {K V : Type} [DecidableEq K] : List (K × V) → K → V → List (K × V)
  | [], k, v => [(k, v)]
  | (k', v') :: rest, k, v =>
    if k' = k then (k, v) :: rest else (k', v') :: insertA rest k v

/-- Substring containment on strings, via infix containment of character lists. -/
def containsSubstr (s sub : String) : Bool :=
  decide (sub.data <:+: s.data)

/-- Fuel-indexed core of `str::replace`: scans the character list left to right,
replacing each (non-overlapping, leftmost-first) occurrence of `pat` by `repl`.
The fuel is instantiated with the length of the scanned list, which bounds the
number of steps the scan can take. -/
def replaceAux (pat repl : List Char) : Nat → List Char → List Char
  | 0, s => s
  | _ + 1, [] => []
  | fuel + 1, c :: rest =>
    if pat.isPrefixOf (c :: rest) then
      repl ++ replaceAux pat repl fuel (List.drop (pat.length - 1) rest)
    else
      c :: replaceAux pat repl fuel rest

/-- Model of Rust `str::replace(pat, repl)` for a non-empty pattern (the single
pattern used by `running.rs`, `" Custom Hint Error: "`, is non-empty). -/
def replaceAllStr (s pat repl : String) : String :=
  if pat.isEmpty then s
  else String.mk (replaceAux pat.data repl.data s.data.length s.data)

/-! ## Instruction/Hint Indexer — `build_hints_dict` (`running.rs` lines 56–80).

`Instruction` keeps exactly the two projections `build_hints_dict` reads from a
CASM instruction: its attached hints and `body.op_size()`. The hint type `H` and
the hint-parameter type `P` are abstract (they live in external crates); the two
external conversions (debug formatting of a hint, `hint_to_hint_params`) are passed
as function parameters `hintRepr` and `hintToParams`. -/

structure Instruction (H : Type) where
  hints : List H
  opSize : Nat
deriving DecidableEq, Repr

/-- The loop body of `build_hints_dict`: threads the two maps and the running
`hint_offset` through the instruction list, in source order. -/
def buildHintsDictLoop {H P : Type} (hintRepr : H → String) (hintToParams : H → P) :
    List (Instruction H) → List (Nat × List P) → List (String × H) → Nat →
      List (Nat × List P) × List (String × H)
  | [], hintsDict, stringToHint, _ => (hintsDict, stringToHint)
  | instruction :: rest, hintsDict, stringToHint, hintOffset =>
    let stringToHint' :=
      if instruction.hints.isEmpty then stringToHint
      else instruction.hints.foldl (fun m hint => insertA m (hintRepr hint) hint) stringToHint
    let hintsDict' :=
      if instruction.hints.isEmpty then hintsDict
      else insertA hintsDict hintOffset (instruction.hints.map hintToParams)
    buildHintsDictLoop hintRepr hintToParams rest hintsDict' stringToHint'
      (hintOffset + instruction.opSize)

/-- `build_hints_dict` (`running.rs:57`): builds the offset→hint-parameters map
and the identity→hint map in one forward pass, starting from empty maps and
offset `0`. -/
def buildHintsDict {H P : Type} (hintRepr : H → String) (hintToParams : H → P)
    (instructions : List (Instruction H)) :
    List (Nat × List P) × List (String × H) :=
  buildHintsDictLoop hintRepr hintToParams instructions [] [] 0

/-- Entries registered by the loop when started at offset `off`: one entry per
instruction with a non-empty hint list, keyed by the running offset. Recursive
form, used to relate the loop to the prefix-sum formula. -/
def hintEntriesFrom {H P : Type} (hintToParams : H → P) :
    Nat → List (Instruction H) → List (Nat × List P)
  | _, [] => []
  | off, instruction :: rest =>
    (if instruction.hints.isEmpty then []
     else [(off, instruction.hints.map hintToParams)]) ++
      hintEntriesFrom hintToParams (off + instruction.opSize) rest

/-- Specification-side entry list: instruction `i` (when it has hints) is
registered under `off` plus the sum of the encoded sizes (`op_size`) of the
instructions preceding it. -/
def hintEntriesSpec {H P : Type} (hintToParams : H → P) (off : Nat)
    (instructions : List (Instruction H)) : List (Nat × List P) :=
  (List.range instructions.length).filterMap fun i =>
    match instructions.get? i with
    | none => none
    | some instruction =>
      if instruction.hints.isEmpty then none
      else some (off + ((instructions.take i).map Instruction.opSize).sum,
                 instruction.hints.map hintToParams)

/-! ## Configuration loading — `scarb_utils.rs`.

`serde_json::Value` is modelled by `Json`: string leaves (the only shape
`Value::as_str` accepts), objects (the only shape `Value::get` indexes into),
and an opaque `other` constructor for every remaining JSON shape. -/

inductive Json where
  | str (s : String)
  | obj (fields : List (String × Json))
  | other

/-- `serde_json::Value::get(key)`: field lookup on objects, `None` elsewhere. -/
def Json.get (v : Json) (key : String) : Option Json :=
  match v with
  | .obj fields => fields.lookup key
  | _ => none

/-- `serde_json::Value::as_str`: the string of a string leaf, `None` elsewhere. -/
def Json.asStr : Json → Option String
  | .str s => some s
  | _ => none

/-- `CastConfig` (`scarb_utils.rs:13`): `Utf8PathBuf` fields are modelled as
strings; `Default` gives four empty fields. -/
structure CastConfig where
  rpcUrl : String
  account : String
  accountsFile : String
  keystore : String
deriving DecidableEq, Repr

/-- `CastConfig::default()`: every field empty. -/
def CastConfig.defaultConfig : CastConfig :=
  ⟨"", "", "", ""⟩

/-- `get_profile` (`scarb_utils.rs:37`): with a named profile, index the
`[tool.sncast]` table by it and error when absent; with no profile, return the
table itself. -/
def getProfile (toolSncast : Json) (profile : Option String) : Except String Json :=
  match profile with
  | some p =>
    match toolSncast.get p with
    | some v => Except.ok v
    | none => Except.error ("No field [tool.sncast." ++ p ++ "] found in package")
  | none => Except.ok toolSncast

/-- `get_property` (`scarb_utils.rs:46`) at `T = String`/`Utf8PathBuf`: read the
field as a string, defaulting to the empty value when absent or non-string. -/
def getProperty (tool : Json) (field : String) : String :=
  ((tool.get field).bind Json.asStr).getD ("")

/-- `CastConfig::from_package_tool_sncast` (`scarb_utils.rs:22`). -/
def CastConfig.fromPackageToolSncast (packageToolSncast : Json)
    (profile : Option String) : Except String CastConfig :=
  match getProfile packageToolSncast profile with
  | Except.error e => Except.error e
  | Except.ok tool =>
    Except.ok
      ⟨getProperty tool ("url"), getProperty tool ("account"),
       getProperty tool ("accounts-file"), getProperty tool ("keystore")⟩

/-- The one projection of `scarb_metadata::PackageMetadata` the configuration
loader reads: `package.manifest_metadata.tool`, an optional JSON table. -/
structure PackageMetadata where
  manifestMetadataTool : Option Json

/-- `get_package_tool_sncast` (`scarb_utils.rs:172`). -/
def getPackageToolSncast (package : PackageMetadata) : Except String Json :=
  match package.manifestMetadataTool with
  | none => Except.error ("No field [tool] found in package")
  | some tool =>
    match tool.get ("sncast") with
    | none => Except.error ("No field [tool.sncast] found in package")
    | some toolSncast => Except.ok toolSncast

/-- `parse_scarb_config` (`scarb_utils.rs:157`). -/
def parseScarbConfig (profile : Option String)
    (packageMetadata : Option PackageMetadata) : Except String CastConfig :=
  match packageMetadata with
  | some data =>
    match getPackageToolSncast data with
    | Except.ok packageToolSncast =>
      CastConfig.fromPackageToolSncast packageToolSncast profile
    | Except.error _ => Except.ok CastConfig.defaultConfig
  | none => Except.ok CastConfig.defaultConfig

/-! ## Test Case Executor — `running.rs`.

Field elements (`Felt252`) are modelled as naturals; their arithmetic is never
used by the embedded code. External collaborators called by `run_test_case`
(Sierra entry-code generation, the VM run itself, block-info reads, gas
accounting) are bundled as deterministic function parameters in `VmOracle`. -/

abbrev Felt252 := Nat

/-- `cairo_lang_runner::RunnerError`, restricted to what `running.rs` pattern
matches on: the `CairoRunError` variant (carrying its display string) versus
every other variant (also carried as its display string). -/
inductive RunnerError where
  | CairoRunError (msg : String)
  | Other (msg : String)
deriving DecidableEq, Repr

/-- Display of a `RunnerError`, used where `running.rs` lets the error escape
through `bail!`. -/
def RunnerError.render : RunnerError → String
  | .CairoRunError msg => msg
  | .Other msg => msg

/-- `cairo_lang_runner::RunResultValue`: a successful return payload or a panic
payload, each a vector of felts. -/
inductive RunResultValue where
  | Success (values : List Felt252)
  | Panic (values : List Felt252)
deriving DecidableEq, Repr

/-- `cairo_lang_runner::RunResult` as assembled in `running.rs:350`. -/
structure RunResult where
  gasCounter : Option Felt252
  memory : List (Option Felt252)
  value : RunResultValue
deriving DecidableEq, Repr

instance exceptDecEq {e a : Type} [DecidableEq e] [DecidableEq a] :
    DecidableEq (Except e a) := fun x y =>
  match x, y with
  | Except.ok v, Except.ok w =>
    if h : v = w then isTrue (by rw [h])
    else isFalse (by intro hh; cases hh; exact h rfl)
  | Except.ok _, Except.error _ => isFalse (by intro hh; cases hh)
  | Except.error _, Except.ok _ => isFalse (by intro hh; cases hh)
  | Except.error v, Except.error w =>
    if h : v = w then isTrue (by rw [h])
    else isFalse (by intro hh; cases hh; exact h rfl)

/-- `RunResultWithInfo` (`running.rs:207`). -/
structure RunResultWithInfo where
  runResult : Except RunnerError RunResult
  gasUsed : Nat
deriving DecidableEq, Repr

/-- `ValidatedForkConfig` (`compiled_runnable.rs`, via its use in
`running.rs:414`): a remote endpoint URL and a pinned block number. -/
structure ValidatedForkConfig where
  url : String
  blockNumber : Nat
deriving DecidableEq, Repr

/-- The projections of `TestCaseRunnable` read by `running.rs`: the test name,
the optional `available_gas` attribute, and the optional fork configuration. -/
structure TestCaseRunnable where
  name : String
  availableGas : Option Nat
  forkConfig : Option ValidatedForkConfig
deriving DecidableEq, Repr

/-- `TestDetails` (`running.rs:214`); generic type ids are modelled as strings. -/
structure TestDetails where
  entryPointOffset : Nat
  parameterTypes : List (String × Int)
  returnTypes : List (String × Int)
deriving DecidableEq, Repr

/-- The projections of `CairoProgram` read by `running.rs`: the instruction
stream and, from the debug info, the code offset of each Sierra statement. -/
structure CairoProgram (H : Type) where
  instructions : List (Instruction H)
  sierraStatementCodeOffsets : List Nat

/-- The projection of `RunnerConfig` read by `running.rs`: the workspace root
(a path, modelled as a string). -/
structure RunnerConfig where
  workspaceRoot : String
deriving DecidableEq, Repr

/-- The projections of `RunnerParams` read by `running.rs`: injected environment
variables and declared contract names (their payloads are opaque here). -/
structure RunnerParams where
  environmentVariables : List (String × String)
  contracts : List String
deriving DecidableEq, Repr

/-- `cheatnet::forking::state::ForkStateReader` as constructed in
`running.rs:415`: endpoint URL, pinned block number, optional cache directory. -/
structure ForkStateReader where
  url : String
  blockId : Nat
  cacheDir : Option String
deriving DecidableEq, Repr

/-- `ExtendedStateReader` (`running.rs:253`): the in-memory testing state (its
contents are opaque to `running.rs`, hence `Unit`) plus an optional fork
reader. -/
structure ExtendedStateReader where
  dictStateReader : Unit
  forkStateReader : Option ForkStateReader
deriving DecidableEq, Repr

/-- The fork-cache directory name `CACHE_DIR` (declared in the crate root,
outside the provided sources); the claims depend only on it being a fixed
constant, not on its value. -/
def CACHE_DIR : String := ".snfoundry_cache"

/-- `get_fork_state_reader` (`running.rs:408`): map the optional fork
configuration to a fork reader pinned at the configured block, caching under
the workspace root. -/
def getForkStateReader (workspaceRoot : String)
    (forkConfig : Option ValidatedForkConfig) : Option ForkStateReader :=
  forkConfig.map fun vfc =>
    ⟨vfc.url, vfc.blockNumber, some (workspaceRoot ++ "/" ++ CACHE_DIR)⟩

/-- The `ExtendedStateReader` built by `run_test_case` (`running.rs:253`). -/
def stateReaderFor (runnerConfig : RunnerConfig) (case : TestCaseRunnable) :
    ExtendedStateReader :=
  ⟨(), getForkStateReader runnerConfig.workspaceRoot case.forkConfig⟩

/-- `CheatnetBlockInfo`: opaque collaborator; only threaded through. -/
structure BlockInfo where
  blockNumber : Nat
  timestamp : Nat
deriving DecidableEq, Repr

/-- The external collaborators invoked by `run_test_case`, as deterministic
functions:
  * `createEntryCode` — `SierraCasmRunner::create_entry_code_from_params`
    (parameter types, arguments, initial gas, entry code offset);
  * `createCodeFooter` — `SierraCasmRunner::create_code_footer()`;
  * `getBlockInfo` — `ExtendedStateReader::get_block_info`, fallible (fork read);
  * `buildRunner` — `casm_run::build_runner`, fallible, runner itself opaque;
  * `runVm` — `run_function_with_runner` plus result extraction
    (`running.rs:314`–`357`), producing either a `RunResult` or a
    `RunnerError::CairoRunError`;
  * `calculateGas` — `calculate_used_gas` over the final state and resources. -/
structure VmOracle (H P : Type) where
  createEntryCode : List (String × Int) → List Felt252 → Nat → Nat →
    List (Instruction H) × List String
  createCodeFooter : List (Instruction H)
  getBlockInfo : ExtendedStateReader → Except String BlockInfo
  buildRunner : List (Instruction H) → List String → List (Nat × List P) →
    Except String Unit
  runVm : List (Instruction H) → List String → List (Nat × List P) →
    List (String × H) → ExtendedStateReader → BlockInfo → RunnerParams →
    Except RunnerError RunResult
  calculateGas : ExtendedStateReader → BlockInfo → RunnerParams →
    Except RunnerError RunResult → Nat

/-- `usize::MAX` on a 64-bit target, the `initial_gas` used in `running.rs:235`. -/
def USIZE_MAX : Nat := 2 ^ 64 - 1

/-- The fixed diagnostic produced by the `ensure!` at `running.rs:230`. -/
def availableGasMsg : String :=
  "\n    Attribute `available_gas` is not supported\n"

/-- `run_test_case` (`running.rs:222`): reject an `available_gas` attribute
before any VM work; build entry code, assemble the instruction stream, index
hints, build the state reader (local plus optional fork), read block info,
build the runner, run the VM, and account gas. -/
def runTestCase {H P : Type} (oracle : VmOracle H P) (hintRepr : H → String)
    (hintToParams : H → P) (args : List Felt252) (case : TestCaseRunnable)
    (casmProgram : CairoProgram H) (testDetails : TestDetails)
    (runnerConfig : RunnerConfig) (runnerParams : RunnerParams) :
    Except String RunResultWithInfo :=
  if case.availableGas.isSome then Except.error availableGasMsg
  else
    let initialGas := USIZE_MAX
    let entryCodeOffset :=
      casmProgram.sierraStatementCodeOffsets.getD testDetails.entryPointOffset 0
    let (entryCode, builtins) :=
      oracle.createEntryCode testDetails.parameterTypes args initialGas entryCodeOffset
    let footer := oracle.createCodeFooter
    let instructions := entryCode ++ casmProgram.instructions ++ footer
    let (hintsDict, stringToHint) := buildHintsDict hintRepr hintToParams instructions
    let stateReader := stateReaderFor runnerConfig case
    match oracle.getBlockInfo stateReader with
    | Except.error e => Except.error e
    | Except.ok blockInfo =>
      match oracle.buildRunner instructions builtins hintsDict with
      | Except.error e => Except.error e
      | Except.ok _ =>
        let runResult :=
          oracle.runVm instructions builtins hintsDict stringToHint stateReader
            blockInfo runnerParams
        let gas := oracle.calculateGas stateReader blockInfo runnerParams runResult
        Except.ok ⟨runResult, gas⟩

/-- `TestCaseSummary<Single>` (`test_case_summary.rs`, shape as used by
`running.rs` and described in the data model): Passed carries the gas total,
Failed carries a diagnostic message and the arguments, Skipped and Ignored
carry nothing. `test_statistics` is `()` for single runs. -/
inductive TestCaseSummary where
  | Passed (name : String) (msg : Option String) (arguments : List Felt252)
      (testStatistics : Unit) (gasUsed : Nat)
  | Failed (name : String) (msg : Option String) (arguments : List Felt252)
      (testStatistics : Unit)
  | Skipped
  | Ignored
deriving DecidableEq, Repr

/-- Modelled from the spec: decoding of a panic payload into display text
(`TestCaseSummary::from_run_result_and_info` lives in `test_case_summary.rs`,
which is not among the provided sources). No claim depends on its internals. -/
def decodePanicPayload (values : List Felt252) : String :=
  String.intercalate (", ") (values.map toString)

/-- Modelled from the spec: `TestCaseSummary::from_run_result_and_info`
(`test_case_summary.rs`, not among the provided sources). Spec §3/§8: a
successful run yields Passed with the gas total; a panicking run yields Failed
with a message containing the decoded panic payload. -/
def TestCaseSummary.fromRunResultAndInfo (runResult : RunResult)
    (case : TestCaseRunnable) (args : List Felt252) (gasUsed : Nat) :
    TestCaseSummary :=
  match runResult.value with
  | RunResultValue.Success _ => TestCaseSummary.Passed case.name none args () gasUsed
  | RunResultValue.Panic values =>
    TestCaseSummary.Failed case.name (some (decodePanicPayload values)) args ()

/-- The pattern rewritten by `extract_test_case_summary` (`running.rs:389`). -/
def customHintErrorPat : String := " Custom Hint Error: "

/-- `extract_test_case_summary` (`running.rs:370`): a successful run is decoded
into a summary; a `CairoRunError` becomes a Failed summary whose message embeds
the error display (with `" Custom Hint Error: "` rewritten to a newline plus
indentation); any other runner error is fatal (`bail!`); an error from
`run_test_case` itself becomes a Failed summary carrying the error display. -/
def extractTestCaseSummary (runResult : Except String RunResultWithInfo)
    (case : TestCaseRunnable) (args : List Felt252) :
    Except String TestCaseSummary :=
  match runResult with
  | Except.ok resultWithInfo =>
    match resultWithInfo.runResult with
    | Except.ok runResult =>
      Except.ok
        (TestCaseSummary.fromRunResultAndInfo runResult case args
          resultWithInfo.gasUsed)
    | Except.error (RunnerError.CairoRunError e) =>
      Except.ok
        (TestCaseSummary.Failed case.name
          (some ("\n    " ++ replaceAllStr e customHintErrorPat ("\n    ") ++ "\n"))
          args ())
    | Except.error err => Except.error err.render
  | Except.error e =>
    Except.ok (TestCaseSummary.Failed case.name (some e) args ())

/-! ## Cancellable Scheduler — `run_test` (`running.rs:82`) and `run_fuzz_test`
(`running.rs:118`).

The cancellation channel is sampled exactly where the code calls
`send.is_closed()` (and `fuzzing_send.is_closed()`): once before the run and
once after it. The booleans passed below are the values those samples return;
`fuzzingSendClosedAfter` is the state the fuzzing-specific signal would show at
the post-run instant — the code never reads it there, which the definition
reflects by ignoring it. -/

/-- The body of the unit of work spawned by `run_test` (`running.rs:90`–`114`). -/
def runTest {H P : Type} (sendClosedBefore sendClosedAfter : Bool)
    (oracle : VmOracle H P) (hintRepr : H → String) (hintToParams : H → P)
    (case : TestCaseRunnable) (casmProgram : CairoProgram H)
    (testDetails : TestDetails) (runnerConfig : RunnerConfig)
    (runnerParams : RunnerParams) : Except String TestCaseSummary :=
  if sendClosedBefore then Except.ok TestCaseSummary.Skipped
  else
    let runResult :=
      runTestCase oracle hintRepr hintToParams [] case casmProgram testDetails
        runnerConfig runnerParams
    if sendClosedAfter then Except.ok TestCaseSummary.Skipped
    else extractTestCaseSummary runResult case []

/-- The body of the unit of work spawned by `run_fuzz_test`
(`running.rs:128`–`153`): the pre-run check ors the general and the
fuzzing-specific signals; the post-run check reads only the general signal. -/
def runFuzzTest {H P : Type} (sendClosedBefore fuzzingSendClosedBefore
    sendClosedAfter _fuzzingSendClosedAfter : Bool) (oracle : VmOracle H P)
    (hintRepr : H → String) (hintToParams : H → P) (args : List Felt252)
    (case : TestCaseRunnable) (casmProgram : CairoProgram H)
    (testDetails : TestDetails) (runnerConfig : RunnerConfig)
    (runnerParams : RunnerParams) : Except String TestCaseSummary :=
  if sendClosedBefore || fuzzingSendClosedBefore then
    Except.ok TestCaseSummary.Skipped
  else
    let runResult :=
      runTestCase oracle hintRepr hintToParams args case casmProgram testDetails
        runnerConfig runnerParams
    if sendClosedAfter then Except.ok TestCaseSummary.Skipped
    else extractTestCaseSummary runResult case args

/-! ## Concrete instances, used to evaluate the embedded code on closed inputs. -/

/-- Trivial hint-identity function on the one-hint model `Unit`. -/
def unitRepr : Unit → String := fun _ => "u"

/-- A second, different hint-identity function on `Unit`. -/
def unitReprAlt : Unit → String := fun _ => "v"

/-- Trivial hint-parameter conversion on the one-hint model `Unit`. -/
def unitParams : Unit → Unit := fun _ => ()

/-- An instruction carrying one hint, of encoded size 1. -/
def demoHintedInstr : Instruction Unit := ⟨[()], 1⟩

/-- An instruction carrying no hints, of encoded size 2. -/
def demoPlainInstr : Instruction Unit := ⟨[], 2⟩

/-- A small instruction stream mixing hinted and hint-free instructions. -/
def demoInstructions : List (Instruction Unit) :=
  [demoHintedInstr, demoPlainInstr, demoHintedInstr]

/-- A `[tool.sncast]` table holding one profile named `default`. -/
def demoSncastTable : Json :=
  Json.obj [("default", Json.obj [("url", Json.str ("http://localhost"))])]

/-- A `[tool]` table holding the `sncast` section above. -/
def demoToolTable : Json := Json.obj [("sncast", demoSncastTable)]

/-- Package metadata whose manifest declares the `[tool.sncast]` table above. -/
def demoPackage : PackageMetadata := ⟨some demoToolTable⟩

/-- Package metadata whose manifest declares no `[tool]` table. -/
def demoEmptyPackage : PackageMetadata := ⟨none⟩

/-- An oracle whose VM run succeeds with an empty return payload. -/
def demoOracle : VmOracle Unit Unit :=
  ⟨fun _ _ _ _ => ([], []), [], fun _ => Except.ok ⟨0, 0⟩, fun _ _ _ => Except.ok (),
   fun _ _ _ _ _ _ _ => Except.ok ⟨none, [], RunResultValue.Success []⟩,
   fun _ _ _ _ => 7⟩

/-- An oracle whose VM run fails with a `CairoRunError` displaying `boom`. -/
def demoOracleErr : VmOracle Unit Unit :=
  ⟨fun _ _ _ _ => ([], []), [], fun _ => Except.ok ⟨1, 2⟩, fun _ _ _ => Except.ok (),
   fun _ _ _ _ _ _ _ => Except.error (RunnerError.CairoRunError ("boom")),
   fun _ _ _ _ => 9⟩

/-- A test case declaring the unsupported `available_gas` attribute. -/
def demoGasCase : TestCaseRunnable := ⟨"gas_case", some 5, none⟩

/-- A test case with neither `available_gas` nor a fork configuration. -/
def demoPlainCase : TestCaseRunnable := ⟨"plain_case", none, none⟩

/-- An empty compiled program with a single statement offset. -/
def demoProgram : CairoProgram Unit := ⟨[], [0]⟩

/-- Test details for a parameterless, valueless entry point. -/
def demoDetails : TestDetails := ⟨0, [], []⟩

/-- A runner configuration rooted at `/ws`. -/
def demoRunnerConfig : RunnerConfig := ⟨"/ws"⟩

/-- Runner parameters with no environment variables and no contracts. -/
def demoRunnerParams : RunnerParams := ⟨[], []⟩

/-- A run outcome carrying a `CairoRunError` displaying `boom`. -/
def demoRunInfoErr : RunResultWithInfo :=
  ⟨Except.error (RunnerError.CairoRunError ("boom")), 0⟩

/-- A diagnostic text that itself contains the rewritten marker. -/
def demoHintErrorText : String := "x Custom Hint Error: y"

/-! ## Lemmas about the hint indexer. -/

/-- The first component of the indexing loop is the fold of `insertA` over the
entries the loop registers, keyed by the running offset. -/
theorem buildHintsDictLoop_fst {H P : Type} (hintRepr : H → String)
    (hintToParams : H → P) :
    ∀ (insts : List (Instruction H)) (d : List (Nat × List P))
      (s : List (String × H)) (off : Nat),
      (buildHintsDictLoop hintRepr hintToParams insts d s off).1 =
        (hintEntriesFrom hintToParams off insts).foldl
          (fun m e => insertA m e.1 e.2) d
  | [], _, _, _ => rfl
  | inst :: rest, d, s, off => by
    by_cases h : inst.hints.isEmpty <;>
      simp [buildHintsDictLoop, hintEntriesFrom, h,
        buildHintsDictLoop_fst hintRepr hintToParams rest]

/-- Unfolding of the prefix-sum entry list at a cons cell: the head contributes
(at most) one entry at the current offset, the tail is indexed with the offset
advanced by the head's size. -/
theorem hintEntriesSpec_cons {H P : Type} (hintToParams : H → P) (off : Nat)
    (inst : Instruction H) (rest : List (Instruction H)) :
    hintEntriesSpec hintToParams off (inst :: rest) =
      (if inst.hints.isEmpty then [] else [(off, inst.hints.map hintToParams)]) ++
        hintEntriesSpec hintToParams (off + inst.opSize) rest := by
  unfold hintEntriesSpec
  rw [List.length_cons, List.range_succ_eq_map, List.filterMap_cons,
    List.filterMap_map]
  have htail :
      List.filterMap
        ((fun i =>
          match (inst :: rest).get? i with
          | none => none
          | some instruction =>
            if instruction.hints.isEmpty then none
            else some (off + (((inst :: rest).take i).map Instruction.opSize).sum,
              instruction.hints.map hintToParams)) ∘ Nat.succ)
        (List.range rest.length) =
      List.filterMap
        (fun i =>
          match rest.get? i with
          | none => none
          | some instruction =>
            if instruction.hints.isEmpty then none
            else some (off + inst.opSize + ((rest.take i).map Instruction.opSize).sum,
              instruction.hints.map hintToParams))
        (List.range rest.length) := by
    apply List.filterMap_congr
    intro i _
    cases hres : rest[i]? with
    | none => simp [List.get?_eq_getElem?, hres]
    | some instru =>
      by_cases hi : instru.hints.isEmpty <;>
        simp [List.get?_eq_getElem?, hres, hi, Nat.add_assoc]
  rw [htail]
  by_cases h : inst.hints.isEmpty <;> simp [h]

/-- The loop's registration offsets agree with the prefix-sum formula. -/
theorem hintEntriesFrom_eq_spec {H P : Type} (hintToParams : H → P) :
    ∀ (insts : List (Instruction H)) (off : Nat),
      hintEntriesFrom hintToParams off insts = hintEntriesSpec hintToParams off insts
  | [], off => by simp [hintEntriesFrom, hintEntriesSpec]
  | inst :: rest, off => by
    rw [hintEntriesFrom, hintEntriesSpec_cons,
      hintEntriesFrom_eq_spec hintToParams rest]

/-- Every entry registered by a loop started at `off` has key at least `off`. -/
theorem hintEntriesFrom_key_le {H P : Type} (hintToParams : H → P) :
    ∀ (insts : List (Instruction H)) (off : Nat) (e : Nat × List P),
      e ∈ hintEntriesFrom hintToParams off insts → off ≤ e.1
  | [], _, _, hmem => by simp [hintEntriesFrom] at hmem
  | inst :: rest, off, e, hmem => by
    rw [hintEntriesFrom] at hmem
    rcases List.mem_append.mp hmem with hhead | htail
    · by_cases h : inst.hints.isEmpty <;> simp [h] at hhead
      simp [hhead]
    · exact le_trans (Nat.le_add_right off inst.opSize)
        (hintEntriesFrom_key_le hintToParams rest (off + inst.opSize) e htail)

/-- With every instruction of positive encoded size, the registered keys are
strictly increasing in registration order. -/
theorem hintEntriesFrom_keys_sorted {H P : Type} (hintToParams : H → P) :
    ∀ (insts : List (Instruction H)) (off : Nat),
      (∀ inst ∈ insts, 1 ≤ inst.opSize) →
      ((hintEntriesFrom hintToParams off insts).map Prod.fst).Pairwise (· < ·)
  | [], _, _ => by simp [hintEntriesFrom]
  | inst :: rest, off, h => by
    have hrest : ∀ i ∈ rest, 1 ≤ i.opSize := fun i hi => h i (List.mem_cons_of_mem _ hi)
    have htail := hintEntriesFrom_keys_sorted hintToParams rest (off + inst.opSize) hrest
    rw [hintEntriesFrom, List.map_append, List.pairwise_append]
    refine ⟨?_, htail, ?_⟩
    · by_cases hemp : inst.hints.isEmpty <;> simp [hemp]
    · intro a ha b hb
      by_cases hemp : inst.hints.isEmpty <;> simp [hemp] at ha
      rcases List.mem_map.mp hb with ⟨e, he, rfl⟩
      have hle := hintEntriesFrom_key_le hintToParams rest (off + inst.opSize) e he
      have hsz : 1 ≤ inst.opSize := h inst (List.mem_cons_self _ _)
      subst ha
      omega

/-- Inserting a key absent from the map appends the new entry at the end. -/
theorem insertA_fresh {K V : Type} [DecidableEq K] :
    ∀ (m : List (K × V)) (k : K) (v : V), k ∉ m.map Prod.fst →
      insertA m k v = m ++ [(k, v)]
  | [], _, _, _ => rfl
  | (k', v') :: rest, k, v, hk => by
    have hne : ¬ k' = k := by
      intro heq
      exact hk (by simp [heq])
    have hrest : k ∉ rest.map Prod.fst := by
      intro hmem
      exact hk (by simp [hmem])
    simp [insertA, hne, insertA_fresh rest k v hrest]

/-- Folding `insertA` over an entry list whose keys are fresh for the initial
map and mutually distinct appends the entries verbatim: no entry overwrites
another. -/
theorem foldl_insertA_append {K V : Type} [DecidableEq K] :
    ∀ (entries m : List (K × V)),
      (entries.map Prod.fst).Nodup →
      (∀ k ∈ entries.map Prod.fst, k ∉ m.map Prod.fst) →
      entries.foldl (fun acc e => insertA acc e.1 e.2) m = m ++ entries
  | [], m, _, _ => by simp
  | (k, v) :: rest, m, hnodup, hdisj => by
    have hfresh : k ∉ m.map Prod.fst := hdisj k (by simp)
    have hnodup' : (rest.map Prod.fst).Nodup := (List.nodup_cons.mp hnodup).2
    have hknot : k ∉ rest.map Prod.fst := (List.nodup_cons.mp hnodup).1
    have hdisj' : ∀ k' ∈ rest.map Prod.fst, k' ∉ (m ++ [(k, v)]).map Prod.fst := by
      intro k' hk' hmem
      rw [List.map_append] at hmem
      rcases List.mem_append.mp hmem with hm | hone
      · exact hdisj k' (by simp [hk']) hm
      · simp at hone
        exact hknot (hone ▸ hk')
    calc ((k, v) :: rest).foldl (fun acc e => insertA acc e.1 e.2) m
        = rest.foldl (fun acc e => insertA acc e.1 e.2) (insertA m k v) := by
          simp [List.foldl_cons]
      _ = rest.foldl (fun acc e => insertA acc e.1 e.2) (m ++ [(k, v)]) := by
          rw [insertA_fresh m k v hfresh]
      _ = (m ++ [(k, v)]) ++ rest := foldl_insertA_append rest _ hnodup' hdisj'
      _ = m ++ ((k, v) :: rest) := by simp

/-- The loop registers exactly one entry per instruction with hints. -/
theorem hintEntriesFrom_length {H P : Type} (hintToParams : H → P) :
    ∀ (insts : List (Instruction H)) (off : Nat),
      (hintEntriesFrom hintToParams off insts).length =
        (insts.filter fun inst => !inst.hints.isEmpty).length
  | [], _ => rfl
  | inst :: rest, off => by
    by_cases h : inst.hints.isEmpty <;>
      simp [hintEntriesFrom, List.filter_cons, h,
        hintEntriesFrom_length hintToParams rest]

/-! ## Lemmas about string replacement and summary extraction. -/

/-- A string is a substring of any sandwich around it. -/
theorem containsSubstr_sandwich (pre mid suf : String) :
    containsSubstr (pre ++ mid ++ suf) mid = true := by
  simp only [containsSubstr, String.data_append, decide_eq_true_eq]
  exact List.infix_append _ _ _

/-- When the pattern occurs nowhere in the scanned list, the replacement scan
leaves the list unchanged. -/
theorem replaceAux_no_occurrence (pat repl : List Char) :
    ∀ (fuel : Nat) (s : List Char), ¬ pat <:+: s → replaceAux pat repl fuel s = s
  | 0, _, _ => rfl
  | _ + 1, [], _ => rfl
  | fuel + 1, c :: rest, hno => by
    have hpre : pat.isPrefixOf (c :: rest) = false := by
      rw [Bool.eq_false_iff]
      intro hp
      exact hno ( List.isPrefixOf_iff_prefix.mp hp).isInfix
    have hrest : ¬ pat <:+: rest := fun hinf => hno (List.infix_cons hinf)
    simp only [replaceAux, hpre, Bool.false_eq_true, if_false]
    exact congrArg (c :: ·) (replaceAux_no_occurrence pat repl fuel rest hrest)

/-- `str::replace` is the identity on strings that do not contain the pattern. -/
theorem replaceAllStr_no_occurrence (s pat repl : String)
    (h : containsSubstr s pat = false) : replaceAllStr s pat repl = s := by
  have hno : ¬ pat.data <:+: s.data := by
    intro hinf
    simp [containsSubstr, hinf] at h
  unfold replaceAllStr
  by_cases hp : pat.isEmpty = true
  · simp [hp]
  · have hp' : pat.isEmpty = false := by simpa using hp
    simp only [hp', Bool.false_eq_true, if_false]
    rw [replaceAux_no_occurrence pat.data repl.data s.data.length s.data hno]

/-- Summary extraction never produces the Skipped outcome: Skipped arises only
from the scheduler's cancellation checks. -/
theorem extractTestCaseSummary_ne_skipped (runResult : Except String RunResultWithInfo)
    (testCase : TestCaseRunnable) (args : List Felt252) :
    extractTestCaseSummary runResult testCase args ≠
      Except.ok TestCaseSummary.Skipped := by
  cases runResult with
  | error e => simp [extractTestCaseSummary]
  | ok rwi =>
    cases hrr : rwi.runResult with
    | ok rr =>
      simp only [extractTestCaseSummary, hrr, TestCaseSummary.fromRunResultAndInfo]
      cases rr.value <;> simp
    | error err =>
      cases err <;> simp [extractTestCaseSummary, hrr]

/-! ## Claims. -/

/-- Claim C4: `build_hints_dict` makes one forward pass and registers the hints
of each instruction under the offset equal to the sum of the encoded sizes
(`op_size`) of all preceding instructions; for the empty instruction sequence,
both returned maps are empty. -/
theorem c4_build_hints_dict_offsets {H P : Type} (hintRepr : H → String)
    (hintToParams : H → P) (instructions : List (Instruction H)) :
    (buildHintsDict hintRepr hintToParams instructions).1 =
      (hintEntriesSpec hintToParams 0 instructions).foldl
        (fun m e => insertA m e.1 e.2) [] ∧
    buildHintsDict hintRepr hintToParams ([] : List (Instruction H)) = ([], []) := by
  refine ⟨?_, rfl⟩
  rw [buildHintsDict, buildHintsDictLoop_fst, hintEntriesFrom_eq_spec]

/-- Claim C8: when every instruction's encoded size is at least 1, the
offset→hint-parameters map built by `build_hints_dict` has pairwise-distinct
keys, and no insertion overwrites another: the map keeps exactly one entry per
instruction with hints. -/
theorem c8_hint_offsets_unique {H P : Type} (hintRepr : H → String)
    (hintToParams : H → P) (instructions : List (Instruction H))
    (h : ∀ inst ∈ instructions, 1 ≤ inst.opSize) :
    ((buildHintsDict hintRepr hintToParams instructions).1.map Prod.fst).Nodup ∧
    (buildHintsDict hintRepr hintToParams instructions).1.length =
      (instructions.filter fun inst => !inst.hints.isEmpty).length := by
  have hsorted := hintEntriesFrom_keys_sorted hintToParams instructions 0 h
  have hnodup :
      ((hintEntriesFrom hintToParams 0 instructions).map Prod.fst).Nodup :=
    hsorted.imp fun hlt => Nat.ne_of_lt hlt
  have hfst : (buildHintsDict hintRepr hintToParams instructions).1 =
      hintEntriesFrom hintToParams 0 instructions := by
    rw [buildHintsDict, buildHintsDictLoop_fst]
    simpa using
      foldl_insertA_append (hintEntriesFrom hintToParams 0 instructions) []
        hnodup (by simp)
  rw [hfst]
  exact ⟨hnodup, hintEntriesFrom_length hintToParams instructions 0⟩

/-- Witness for C8 at a concrete instruction stream. -/
theorem c8_hint_offsets_unique_witness :
    (∀ inst ∈ demoInstructions, 1 ≤ inst.opSize) ∧
    (((buildHintsDict unitRepr unitParams demoInstructions).1.map Prod.fst).Nodup ∧
      (buildHintsDict unitRepr unitParams demoInstructions).1.length =
        (demoInstructions.filter fun inst => !inst.hints.isEmpty).length) :=
  ⟨by decide, c8_hint_offsets_unique unitRepr unitParams demoInstructions (by decide)⟩

/-- Claim C10: `parse_scarb_config` returns the default configuration without
error whenever the package metadata is absent, lacks a `[tool]` table, or lacks
a `[tool.sncast]` section, for every requested profile; but when `[tool.sncast]`
exists and a named profile is requested that it does not contain, it returns an
error rather than the default. -/
theorem c10_parse_scarb_config_defaults_and_profile_error
    (profile : Option String) (profileName : String) (pm : PackageMetadata)
    (toolTable sncastTable : Json) :
    parseScarbConfig profile none = Except.ok CastConfig.defaultConfig ∧
    (pm.manifestMetadataTool = none →
      parseScarbConfig profile (some pm) = Except.ok CastConfig.defaultConfig) ∧
    (pm.manifestMetadataTool = some toolTable → toolTable.get ("sncast") = none →
      parseScarbConfig profile (some pm) = Except.ok CastConfig.defaultConfig) ∧
    (pm.manifestMetadataTool = some toolTable →
      toolTable.get ("sncast") = some sncastTable →
      sncastTable.get profileName = none →
      parseScarbConfig (some profileName) (some pm) =
        Except.error ("No field [tool.sncast." ++ profileName ++ "] found in package")) := by
  refine ⟨rfl, ?_, ?_, ?_⟩
  · intro h1
    simp [parseScarbConfig, getPackageToolSncast, h1]
  · intro h1 h2
    simp [parseScarbConfig, getPackageToolSncast, h1, h2]
  · intro h1 h2 h3
    simp [parseScarbConfig, getPackageToolSncast, h1, h2,
      CastConfig.fromPackageToolSncast, getProfile, h3]

/-- Witness for C10: the default on missing `[tool]`, and the error on a
missing named profile, at concrete metadata. -/
theorem c10_parse_scarb_config_witness :
    demoEmptyPackage.manifestMetadataTool = none ∧
    parseScarbConfig none (some demoEmptyPackage) =
      Except.ok CastConfig.defaultConfig ∧
    demoPackage.manifestMetadataTool = some demoToolTable ∧
    demoToolTable.get ("sncast") = some demoSncastTable ∧
    demoSncastTable.get ("missing") = none ∧
    parseScarbConfig (some ("missing")) (some demoPackage) =
      Except.error ("No field [tool.sncast." ++ "missing" ++ "] found in package") :=
  ⟨rfl,
   (c10_parse_scarb_config_defaults_and_profile_error none ("missing")
      demoEmptyPackage demoToolTable demoSncastTable).2.1 rfl,
   rfl, rfl, rfl,
   (c10_parse_scarb_config_defaults_and_profile_error (some ("missing")) ("missing")
      demoPackage demoToolTable demoSncastTable).2.2.2 rfl rfl rfl⟩

/-- Claim C6: the state reader assembled by `run_test_case` carries a fork state
reader exactly when the test case's fork configuration is present; in
particular, an absent fork configuration yields no fork reader, leaving only
the in-memory local testing state. -/
theorem c6_fork_reader_presence :
    (∀ (runnerConfig : RunnerConfig) (testCase : TestCaseRunnable),
      (stateReaderFor runnerConfig testCase).forkStateReader.isSome =
        testCase.forkConfig.isSome) ∧
    (∀ workspaceRoot : String, getForkStateReader workspaceRoot none = none) := by
  constructor
  · intro cfg testCase
    cases hc : testCase.forkConfig <;>
      simp [stateReaderFor, getForkStateReader, hc]
  · intro w
    rfl

/-- Claim C1: a test case whose `available_gas` attribute is present yields a
Failed summary carrying the fixed unsupported-attribute diagnostic, for every
argument vector and program body; the result does not depend on any VM
collaborator, so the check precedes all VM work. -/
theorem c1_available_gas_rejected {H P : Type} (oracle oracle' : VmOracle H P)
    (hintRepr hintRepr' : H → String) (hintToParams hintToParams' : H → P)
    (args : List Felt252) (testCase : TestCaseRunnable)
    (casmProgram casmProgram' : CairoProgram H)
    (testDetails testDetails' : TestDetails)
    (runnerConfig runnerConfig' : RunnerConfig)
    (runnerParams runnerParams' : RunnerParams) (g : Nat)
    (h : testCase.availableGas = some g) :
    runTestCase oracle hintRepr hintToParams args testCase casmProgram testDetails
        runnerConfig runnerParams = Except.error availableGasMsg ∧
    extractTestCaseSummary
        (runTestCase oracle hintRepr hintToParams args testCase casmProgram
          testDetails runnerConfig runnerParams) testCase args =
      Except.ok
        (TestCaseSummary.Failed testCase.name (some availableGasMsg) args ()) ∧
    containsSubstr availableGasMsg
        ("Attribute `available_gas` is not supported") = true ∧
    runTestCase oracle hintRepr hintToParams args testCase casmProgram testDetails
        runnerConfig runnerParams =
      runTestCase oracle' hintRepr' hintToParams' args testCase casmProgram'
        testDetails' runnerConfig' runnerParams' := by
  have hrun : ∀ (o : VmOracle H P) (hr : H → String) (hp : H → P)
      (cp : CairoProgram H) (td : TestDetails) (rc : RunnerConfig)
      (rp : RunnerParams),
      runTestCase o hr hp args testCase cp td rc rp =
        Except.error availableGasMsg := by
    intro o hr hp cp td rc rp
    simp [runTestCase, h]
  refine ⟨hrun oracle hintRepr hintToParams casmProgram testDetails runnerConfig
    runnerParams, ?_, by decide, ?_⟩
  · rw [hrun oracle hintRepr hintToParams casmProgram testDetails runnerConfig
      runnerParams]
    rfl
  · rw [hrun oracle hintRepr hintToParams casmProgram testDetails runnerConfig
      runnerParams,
      hrun oracle' hintRepr' hintToParams' casmProgram' testDetails' runnerConfig'
      runnerParams']

/-- Witness for C1 at a concrete test case with `available_gas = some 5` and two
different oracles. -/
theorem c1_available_gas_rejected_witness :
    demoGasCase.availableGas = some 5 ∧
    (runTestCase demoOracle unitRepr unitParams [] demoGasCase demoProgram
        demoDetails demoRunnerConfig demoRunnerParams =
      Except.error availableGasMsg ∧
    extractTestCaseSummary
        (runTestCase demoOracle unitRepr unitParams [] demoGasCase demoProgram
          demoDetails demoRunnerConfig demoRunnerParams) demoGasCase [] =
      Except.ok
        (TestCaseSummary.Failed demoGasCase.name (some availableGasMsg) [] ()) ∧
    containsSubstr availableGasMsg
        ("Attribute `available_gas` is not supported") = true ∧
    runTestCase demoOracle unitRepr unitParams [] demoGasCase demoProgram
        demoDetails demoRunnerConfig demoRunnerParams =
      runTestCase demoOracleErr unitReprAlt unitParams [] demoGasCase demoProgram
        demoDetails demoRunnerConfig demoRunnerParams) :=
  ⟨rfl,
   c1_available_gas_rejected demoOracle demoOracleErr unitRepr unitReprAlt
     unitParams unitParams [] demoGasCase demoProgram demoProgram demoDetails
     demoDetails demoRunnerConfig demoRunnerConfig demoRunnerParams
     demoRunnerParams 5 rfl⟩

/-- Claim C7: the embedded executor is a pure function of its inputs (with all
external collaborators fixed as deterministic functions), so two invocations of
`run_test_case` on identical inputs produce identical gas totals and identical
return/panic payloads. -/
theorem c7_run_test_case_deterministic {H P : Type} (oracle : VmOracle H P)
    (hintRepr : H → String) (hintToParams : H → P)
    (args1 args2 : List Felt252) (case1 case2 : TestCaseRunnable)
    (prog1 prog2 : CairoProgram H) (det1 det2 : TestDetails)
    (cfg1 cfg2 : RunnerConfig) (prm1 prm2 : RunnerParams)
    (hargs : args1 = args2) (hcase : case1 = case2) (hprog : prog1 = prog2)
    (hdet : det1 = det2) (hcfg : cfg1 = cfg2) (hprm : prm1 = prm2) :
    (runTestCase oracle hintRepr hintToParams args1 case1 prog1 det1 cfg1
        prm1).map RunResultWithInfo.gasUsed =
      (runTestCase oracle hintRepr hintToParams args2 case2 prog2 det2 cfg2
        prm2).map RunResultWithInfo.gasUsed ∧
    (runTestCase oracle hintRepr hintToParams args1 case1 prog1 det1 cfg1
        prm1).map RunResultWithInfo.runResult =
      (runTestCase oracle hintRepr hintToParams args2 case2 prog2 det2 cfg2
        prm2).map RunResultWithInfo.runResult := by
  subst hargs hcase hprog hdet hcfg hprm
  exact ⟨rfl, rfl⟩

/-- Witness for C7 at concrete identical inputs. -/
theorem c7_run_test_case_deterministic_witness :
    ([] : List Felt252) = [] ∧
    demoPlainCase = demoPlainCase ∧
    ((runTestCase demoOracle unitRepr unitParams [] demoPlainCase demoProgram
        demoDetails demoRunnerConfig demoRunnerParams).map
          RunResultWithInfo.gasUsed =
      (runTestCase demoOracle unitRepr unitParams [] demoPlainCase demoProgram
        demoDetails demoRunnerConfig demoRunnerParams).map
          RunResultWithInfo.gasUsed ∧
    (runTestCase demoOracle unitRepr unitParams [] demoPlainCase demoProgram
        demoDetails demoRunnerConfig demoRunnerParams).map
          RunResultWithInfo.runResult =
      (runTestCase demoOracle unitRepr unitParams [] demoPlainCase demoProgram
        demoDetails demoRunnerConfig demoRunnerParams).map
          RunResultWithInfo.runResult) :=
  ⟨rfl, rfl,
   c7_run_test_case_deterministic demoOracle unitRepr unitParams [] []
     demoPlainCase demoPlainCase demoProgram demoProgram demoDetails demoDetails
     demoRunnerConfig demoRunnerConfig demoRunnerParams demoRunnerParams
     rfl rfl rfl rfl rfl rfl⟩

/-- Claim C3: when the cancellation signal is set at the start of a unit of
work (for fuzz units: either the general or the fuzzing-specific signal), the
unit returns Skipped, and the result does not depend on any VM collaborator —
the executor is never consulted. -/
theorem c3_precheck_skips {H P : Type} (oracle oracle' : VmOracle H P)
    (hintRepr : H → String) (hintToParams : H → P) (args : List Felt252)
    (testCase : TestCaseRunnable) (prog : CairoProgram H) (det : TestDetails)
    (cfg : RunnerConfig) (prm : RunnerParams)
    (sendClosedBefore general fuzzing sendClosedAfter fuzzingAfter : Bool)
    (h1 : sendClosedBefore = true) (h2 : (general || fuzzing) = true) :
    runTest sendClosedBefore sendClosedAfter oracle hintRepr hintToParams
        testCase prog det cfg prm = Except.ok TestCaseSummary.Skipped ∧
    runTest sendClosedBefore sendClosedAfter oracle hintRepr hintToParams
        testCase prog det cfg prm =
      runTest sendClosedBefore sendClosedAfter oracle' hintRepr hintToParams
        testCase prog det cfg prm ∧
    runFuzzTest general fuzzing sendClosedAfter fuzzingAfter oracle hintRepr
        hintToParams args testCase prog det cfg prm =
      Except.ok TestCaseSummary.Skipped ∧
    runFuzzTest general fuzzing sendClosedAfter fuzzingAfter oracle hintRepr
        hintToParams args testCase prog det cfg prm =
      runFuzzTest general fuzzing sendClosedAfter fuzzingAfter oracle' hintRepr
        hintToParams args testCase prog det cfg prm := by
  subst h1
  refine ⟨rfl, rfl, ?_, ?_⟩ <;> simp [runFuzzTest, h2]

/-- Witness for C3: the general signal set for a plain unit; only the
fuzzing-specific signal set for a fuzz unit. -/
theorem c3_precheck_skips_witness :
    (true : Bool) = true ∧
    (false || true) = true ∧
    (runTest true false demoOracle unitRepr unitParams demoPlainCase demoProgram
        demoDetails demoRunnerConfig demoRunnerParams =
      Except.ok TestCaseSummary.Skipped ∧
    runTest true false demoOracle unitRepr unitParams demoPlainCase demoProgram
        demoDetails demoRunnerConfig demoRunnerParams =
      runTest true false demoOracleErr unitRepr unitParams demoPlainCase
        demoProgram demoDetails demoRunnerConfig demoRunnerParams ∧
    runFuzzTest false true false false demoOracle unitRepr unitParams [7]
        demoPlainCase demoProgram demoDetails demoRunnerConfig demoRunnerParams =
      Except.ok TestCaseSummary.Skipped ∧
    runFuzzTest false true false false demoOracle unitRepr unitParams [7]
        demoPlainCase demoProgram demoDetails demoRunnerConfig demoRunnerParams =
      runFuzzTest false true false false demoOracleErr unitRepr unitParams [7]
        demoPlainCase demoProgram demoDetails demoRunnerConfig demoRunnerParams) :=
  ⟨rfl, rfl,
   c3_precheck_skips demoOracle demoOracleErr unitRepr unitParams [7]
     demoPlainCase demoProgram demoDetails demoRunnerConfig demoRunnerParams
     true false true false false rfl rfl⟩

/-- Claim C9: for fuzz units the pre-run check short-circuits to Skipped when
either signal is set, while the post-run check reads only the general signal:
with the general signal unset at both checks, the unit's result is the summary
extracted from the executor's outcome, independently of the fuzzing-specific
signal's state after the run, and is never Skipped. -/
theorem c9_fuzz_post_check_general_only {H P : Type} (oracle : VmOracle H P)
    (hintRepr : H → String) (hintToParams : H → P) (args : List Felt252)
    (testCase : TestCaseRunnable) (prog : CairoProgram H) (det : TestDetails)
    (cfg : RunnerConfig) (prm : RunnerParams)
    (preGeneral preFuzzing postFuzzing postFuzzing' : Bool)
    (h1 : (preGeneral || preFuzzing) = true) :
    runFuzzTest preGeneral preFuzzing false postFuzzing oracle hintRepr
        hintToParams args testCase prog det cfg prm =
      Except.ok TestCaseSummary.Skipped ∧
    runFuzzTest false false false postFuzzing oracle hintRepr hintToParams args
        testCase prog det cfg prm =
      extractTestCaseSummary
        (runTestCase oracle hintRepr hintToParams args testCase prog det cfg prm)
        testCase args ∧
    runFuzzTest false false false postFuzzing oracle hintRepr hintToParams args
        testCase prog det cfg prm =
      runFuzzTest false false false postFuzzing' oracle hintRepr hintToParams
        args testCase prog det cfg prm ∧
    runFuzzTest false false false postFuzzing oracle hintRepr hintToParams args
        testCase prog det cfg prm ≠ Except.ok TestCaseSummary.Skipped := by
  refine ⟨by simp [runFuzzTest, h1], rfl, rfl, ?_⟩
  simp only [runFuzzTest, Bool.or_self, Bool.false_eq_true, if_false]
  exact extractTestCaseSummary_ne_skipped _ _ _

/-- Witness for C9: the fuzzing-specific signal set before the run skips; set
only after the run it does not change the reported outcome. -/
theorem c9_fuzz_post_check_general_only_witness :
    (false || true) = true ∧
    (runFuzzTest false true false true demoOracleErr unitRepr unitParams [7]
        demoPlainCase demoProgram demoDetails demoRunnerConfig demoRunnerParams =
      Except.ok TestCaseSummary.Skipped ∧
    runFuzzTest false false false true demoOracleErr unitRepr unitParams [7]
        demoPlainCase demoProgram demoDetails demoRunnerConfig demoRunnerParams =
      extractTestCaseSummary
        (runTestCase demoOracleErr unitRepr unitParams [7] demoPlainCase
          demoProgram demoDetails demoRunnerConfig demoRunnerParams)
        demoPlainCase [7] ∧
    runFuzzTest false false false true demoOracleErr unitRepr unitParams [7]
        demoPlainCase demoProgram demoDetails demoRunnerConfig demoRunnerParams =
      runFuzzTest false false false false demoOracleErr unitRepr unitParams [7]
        demoPlainCase demoProgram demoDetails demoRunnerConfig demoRunnerParams ∧
    runFuzzTest false false false true demoOracleErr unitRepr unitParams [7]
        demoPlainCase demoProgram demoDetails demoRunnerConfig demoRunnerParams ≠
      Except.ok TestCaseSummary.Skipped) :=
  ⟨rfl,
   c9_fuzz_post_check_general_only demoOracleErr unitRepr unitParams [7]
     demoPlainCase demoProgram demoDetails demoRunnerConfig demoRunnerParams
     false true true false rfl⟩

/-- Claim C2 is false on the code at a concrete input: with the cancellation
signal unset at the pre-run check and set by the post-run check (i.e. it became
set only after the executor's run had completed), the unit returns Skipped even
though the executor produced a Failed outcome. -/
theorem c2_late_cancellation_counterexample :
    extractTestCaseSummary
        (runTestCase demoOracleErr unitRepr unitParams [] demoPlainCase
          demoProgram demoDetails demoRunnerConfig demoRunnerParams)
        demoPlainCase [] =
      Except.ok
        (TestCaseSummary.Failed ("plain_case") (some ("\n    boom\n")) [] ()) ∧
    runTest false true demoOracleErr unitRepr unitParams demoPlainCase
        demoProgram demoDetails demoRunnerConfig demoRunnerParams =
      Except.ok TestCaseSummary.Skipped ∧
    (Except.ok TestCaseSummary.Skipped : Except String TestCaseSummary) ≠
      Except.ok
        (TestCaseSummary.Failed ("plain_case") (some ("\n    boom\n")) [] ()) :=
  ⟨by decide, rfl, by decide⟩

/-- Claim C2 (amended): the unit re-checks the cancellation signal after the
run, so a signal set between run completion and that check still yields
Skipped; only when the signal is unset at both checks is the unit's result the
summary extracted from the executor's outcome — and that reported outcome is
never Skipped. -/
theorem c2_no_overwrite_when_unset_at_post_check {H P : Type}
    (oracle : VmOracle H P) (hintRepr : H → String) (hintToParams : H → P)
    (testCase : TestCaseRunnable) (prog : CairoProgram H) (det : TestDetails)
    (cfg : RunnerConfig) (prm : RunnerParams)
    (sendClosedBefore sendClosedAfter : Bool)
    (h1 : sendClosedBefore = false) (h2 : sendClosedAfter = false) :
    runTest sendClosedBefore sendClosedAfter oracle hintRepr hintToParams
        testCase prog det cfg prm =
      extractTestCaseSummary
        (runTestCase oracle hintRepr hintToParams [] testCase prog det cfg prm)
        testCase [] ∧
    runTest sendClosedBefore sendClosedAfter oracle hintRepr hintToParams
        testCase prog det cfg prm ≠ Except.ok TestCaseSummary.Skipped := by
  subst h1 h2
  refine ⟨rfl, ?_⟩
  simp only [runTest, Bool.false_eq_true, if_false]
  exact extractTestCaseSummary_ne_skipped _ _ _

/-- Witness for the amended C2 at a concrete executor outcome. -/
theorem c2_no_overwrite_witness :
    (false : Bool) = false ∧
    (runTest false false demoOracleErr unitRepr unitParams demoPlainCase
        demoProgram demoDetails demoRunnerConfig demoRunnerParams =
      extractTestCaseSummary
        (runTestCase demoOracleErr unitRepr unitParams [] demoPlainCase
          demoProgram demoDetails demoRunnerConfig demoRunnerParams)
        demoPlainCase [] ∧
    runTest false false demoOracleErr unitRepr unitParams demoPlainCase
        demoProgram demoDetails demoRunnerConfig demoRunnerParams ≠
      Except.ok TestCaseSummary.Skipped) :=
  ⟨rfl,
   c2_no_overwrite_when_unset_at_post_check demoOracleErr unitRepr unitParams
     demoPlainCase demoProgram demoDetails demoRunnerConfig demoRunnerParams
     false false rfl rfl⟩

/-- Claim C5 is false on the code at a concrete input: when the error display
itself contains `" Custom Hint Error: "`, the Failed message holds the display
with that marker rewritten, so the message does not contain the underlying
diagnostic text verbatim. -/
theorem c5_diagnostic_text_counterexample :
    extractTestCaseSummary
        (Except.ok
          ⟨Except.error (RunnerError.CairoRunError demoHintErrorText), 0⟩)
        demoPlainCase [] =
      Except.ok
        (TestCaseSummary.Failed ("plain_case") (some ("\n    x\n    y\n")) [] ()) ∧
    containsSubstr ("\n    x\n    y\n") demoHintErrorText = false :=
  ⟨by decide, by decide⟩

/-- Claim C5 (amended): a VM-level `CairoRunError` always becomes a Failed
summary (not a fatal error, so it is confined to the current test case), whose
message contains the error display with each occurrence of
`" Custom Hint Error: "` replaced by a newline plus indentation; when the
display does not contain that marker, the message contains it verbatim. -/
theorem c5_cairo_run_error_failed (resultWithInfo : RunResultWithInfo)
    (e : String) (testCase : TestCaseRunnable) (args : List Felt252)
    (hrr : resultWithInfo.runResult =
      Except.error (RunnerError.CairoRunError e)) :
    extractTestCaseSummary (Except.ok resultWithInfo) testCase args =
      Except.ok (TestCaseSummary.Failed testCase.name
        (some ("\n    " ++ replaceAllStr e customHintErrorPat ("\n    ") ++ "\n"))
        args ()) ∧
    containsSubstr
        ("\n    " ++ replaceAllStr e customHintErrorPat ("\n    ") ++ "\n")
        (replaceAllStr e customHintErrorPat ("\n    ")) = true ∧
    (containsSubstr e customHintErrorPat = false →
      containsSubstr
        ("\n    " ++ replaceAllStr e customHintErrorPat ("\n    ") ++ "\n") e =
        true) := by
  refine ⟨by simp [extractTestCaseSummary, hrr], containsSubstr_sandwich _ _ _, ?_⟩
  intro hno
  rw [replaceAllStr_no_occurrence e customHintErrorPat ("\n    ") hno]
  exact containsSubstr_sandwich _ _ _

/-- Witness for the amended C5 at a concrete marker-free error display. -/
theorem c5_cairo_run_error_failed_witness :
    demoRunInfoErr.runResult =
      Except.error (RunnerError.CairoRunError ("boom")) ∧
    containsSubstr ("boom") customHintErrorPat = false ∧
    (extractTestCaseSummary (Except.ok demoRunInfoErr) demoPlainCase [] =
      Except.ok (TestCaseSummary.Failed demoPlainCase.name
        (some ("\n    " ++
          replaceAllStr ("boom") customHintErrorPat ("\n    ") ++ "\n")) [] ()) ∧
    containsSubstr
        ("\n    " ++ replaceAllStr ("boom") customHintErrorPat ("\n    ") ++ "\n")
        (replaceAllStr ("boom") customHintErrorPat ("\n    ")) = true ∧
    containsSubstr
        ("\n    " ++ replaceAllStr ("boom") customHintErrorPat ("\n    ") ++ "\n")
        ("boom") = true) := by
  have h := c5_cairo_run_error_failed demoRunInfoErr ("boom") demoPlainCase [] rfl
  exact ⟨rfl, by decide, h.1, h.2.1, h.2.2 (by decide)⟩
